import Mathlib

/-! Verification of the CSS selector builder from `src/06-objects-tasks.js`
(the `cssSelectorBuilder` object and its methods).

The JavaScript state is an object with two fields:
  * `res`  — the accumulated selector string,
  * `bits` — an array of 6 booleans, one presence flag per category
    (0 = element, 1 = id, 2 = class, 3 = attribute, 4 = pseudoClass,
     5 = pseudoElement).
We embed it shallowly: states become a Lean structure, the two thrown
`Error`s (distinguished by their messages) become a two-constructor error
type, and the methods become functions returning `Except`.  Methods that
mutate an object in place (`stringify`, `combine`) are additionally modelled
over an explicit heap (`Store`, a list of states addressed by index) so that
object identity and in-place mutation are observable.
-/

namespace Css

/-- The two distinct errors thrown by the builder, told apart by their
messages: `duplicatePart` carries the message that element, id and
pseudo-element should not occur more than one time inside the selector;
`ordering` carries the message that selector parts should be arranged in
the order element, id, class, attribute, pseudo-class, pseudo-element. -/
inductive BuilderError where
  | duplicatePart
  | ordering
deriving DecidableEq, Repr

/-- A builder state: the `res` string and the six presence `bits` of
`cssSelectorBuilder`. -/
structure SelectorState where
  res : String
  bits : Fin 6 → Bool

instance : DecidableEq SelectorState := fun a b =>
  decidable_of_iff (a.res = b.res ∧ a.bits = b.bits)
    (by cases a; cases b; simp)

instance {ε α : Type} [DecidableEq ε] [DecidableEq α] : DecidableEq (Except ε α) :=
  fun a b =>
  match a, b with
  | .error e, .error f => decidable_of_iff (e = f) (by simp)
  | .ok x, .ok y => decidable_of_iff (x = y) (by simp)
  | .error _, .ok _ => isFalse (by simp)
  | .ok _, .error _ => isFalse (by simp)

/-- The base object: `res` is the empty string and `bits` is
`new Array(6).fill(false)`. -/
def cssSelectorBuilder : SelectorState :=
  { res := "", bits := fun _ => false }

/-- Method `checkCallOnce(bit)`: throws the duplicate-part error when
`this.bits[bit]` is set. -/
def checkCallOnce (s : SelectorState) (bit : Fin 6) : Except BuilderError Unit :=
  if s.bits bit then .error .duplicatePart else .ok ()

/-- Method `checkOrder(bit)`: throws the ordering error when some flag with index
strictly greater than `bit` is set (the JS loop `for i = bit+1 .. 5`). -/
def checkOrder (s : SelectorState) (bit : Fin 6) : Except BuilderError Unit :=
  if ∃ i : Fin 6, bit < i ∧ s.bits i = true then .error .ordering else .ok ()

/-- Method `createNewObj(obj, bit)`: shallow-copies the object, copies the bit
array, and sets `bits[bit]` in the copy. -/
def createNewObj (s : SelectorState) (bit : Fin 6) : SelectorState :=
  { s with bits := Function.update s.bits bit true }

/-- Method `element(value)`: `checkCallOnce(0)`, `checkOrder(0)`, then a copy
whose `res` gains `value`. -/
def element (s : SelectorState) (value : String) : Except BuilderError SelectorState :=
  match checkCallOnce s 0 with
  | .error e => .error e
  | .ok _ =>
    match checkOrder s 0 with
    | .error e => .error e
    | .ok _ =>
      let obj := createNewObj s 0
      .ok { obj with res := obj.res ++ value }

/-- Method `id(value)`: `checkCallOnce(1)`, `checkOrder(1)`, then a copy
whose `res` gains `#` followed by `value`. -/
def id (s : SelectorState) (value : String) : Except BuilderError SelectorState :=
  match checkCallOnce s 1 with
  | .error e => .error e
  | .ok _ =>
    match checkOrder s 1 with
    | .error e => .error e
    | .ok _ =>
      let obj := createNewObj s 1
      .ok { obj with res := obj.res ++ "#" ++ value }

/-- Method `class(value)`: `checkOrder(2)` only, then a copy whose `res`
gains `.` followed by `value`. -/
def «class» (s : SelectorState) (value : String) : Except BuilderError SelectorState :=
  match checkOrder s 2 with
  | .error e => .error e
  | .ok _ =>
    let obj := createNewObj s 2
    .ok { obj with res := obj.res ++ "." ++ value }

/-- Method `attr(value)`: `checkOrder(3)` only, then a copy whose `res`
gains `value` wrapped in square brackets. -/
def attr (s : SelectorState) (value : String) : Except BuilderError SelectorState :=
  match checkOrder s 3 with
  | .error e => .error e
  | .ok _ =>
    let obj := createNewObj s 3
    .ok { obj with res := obj.res ++ "[" ++ value ++ "]" }

/-- Method `pseudoClass(value)`: `checkOrder(4)` only, then a copy whose
`res` gains `:` followed by `value`. -/
def pseudoClass (s : SelectorState) (value : String) : Except BuilderError SelectorState :=
  match checkOrder s 4 with
  | .error e => .error e
  | .ok _ =>
    let obj := createNewObj s 4
    .ok { obj with res := obj.res ++ ":" ++ value }

/-- Method `pseudoElement(value)`: `checkCallOnce(5)`, `checkOrder(5)`, then
a copy whose `res` gains `::` followed by `value`. -/
def pseudoElement (s : SelectorState) (value : String) : Except BuilderError SelectorState :=
  match checkCallOnce s 5 with
  | .error e => .error e
  | .ok _ =>
    match checkOrder s 5 with
    | .error e => .error e
    | .ok _ =>
      let obj := createNewObj s 5
      .ok { obj with res := obj.res ++ "::" ++ value }

/-- Method `stringify()`: returns `this.res` and resets `this.res` to the
empty string on the same
object; value-level version returning the result together with the mutated
state. -/
def stringify (s : SelectorState) : String × SelectorState :=
  (s.res, { s with res := "" })

/-! Heap model.

JavaScript objects live on a heap and are passed by reference.  `combine`
and `stringify` mutate objects in place and `combine` returns its receiver,
so to talk about object identity and aliasing we model the heap explicitly:
a `Store` is the list of allocated builder objects, and a reference is an
index into it.  Reads of unallocated references default to the base object
(all claims only use allocated references). -/
abbrev Store := List SelectorState

/-- Dereference: the object stored at index `r`. -/
def getObj (σ : Store) (r : Nat) : SelectorState :=
  σ.getD r cssSelectorBuilder

/-- Heap form of a part-appending method: the method reads the receiver
`r`, runs its checks, and only on success allocates the fresh copy (the JS
`throw` happens before `createNewObj`, so a failing call performs no write
at all and the store is returned unchanged).  The result is the new store
paired with the outcome (a reference to the freshly allocated object, or
the thrown error). -/
def allocPart (σ : Store) (r : Nat)
    (op : SelectorState → Except BuilderError SelectorState) :
    Store × Except BuilderError Nat :=
  match op (getObj σ r) with
  | .error e => (σ, .error e)
  | .ok s => (σ ++ [s], .ok σ.length)

/-- Method `element` on the heap. -/
def elementS (σ : Store) (r : Nat) (value : String) : Store × Except BuilderError Nat :=
  allocPart σ r (fun s => element s value)

/-- Method `id` on the heap. -/
def idS (σ : Store) (r : Nat) (value : String) : Store × Except BuilderError Nat :=
  allocPart σ r (fun s => id s value)

/-- Method `class` on the heap. -/
def classS (σ : Store) (r : Nat) (value : String) : Store × Except BuilderError Nat :=
  allocPart σ r (fun s => «class» s value)

/-- Method `attr` on the heap. -/
def attrS (σ : Store) (r : Nat) (value : String) : Store × Except BuilderError Nat :=
  allocPart σ r (fun s => attr s value)

/-- Method `pseudoClass` on the heap. -/
def pseudoClassS (σ : Store) (r : Nat) (value : String) : Store × Except BuilderError Nat :=
  allocPart σ r (fun s => pseudoClass s value)

/-- Method `pseudoElement` on the heap. -/
def pseudoElementS (σ : Store) (r : Nat) (value : String) : Store × Except BuilderError Nat :=
  allocPart σ r (fun s => pseudoElement s value)

/-- Method `stringify()` on the heap: returns `this.res` and overwrites the
receiver in place, resetting `res` to the empty string. -/
def stringifyS (σ : Store) (r : Nat) : String × Store :=
  ((getObj σ r).res, σ.set r { getObj σ r with res := "" })

/-- Method `combine(selector1, combinator, selector2)` on the heap, invoked on
receiver `rthis`: it calls `selector1.stringify()` and
`selector2.stringify()` (each of which clears the operand `res` field in
place), writes `` `${temp1} ${combinator} ${temp2}` `` into `this.res`, and
returns `this` — the very same reference `rthis`. -/
def combineS (σ : Store) (rthis r1 : Nat) (combinator : String) (r2 : Nat) :
    Store × Nat :=
  let t1 := stringifyS σ r1
  let t2 := stringifyS t1.2 r2
  (t2.2.set rthis { getObj t2.2 rthis with res := t1.1 ++ " " ++ combinator ++ " " ++ t2.1 },
   rthis)

/-! Chains of part-appending calls. -/

/-- The category-specific textual fragment each method appends:
`value`, `#value`, `.value`, `[value]`, `:value`, `::value`. -/
def fragOf (c : Fin 6) (v : String) : String :=
  match c with
  | 0 => v
  | 1 => "#" ++ v
  | 2 => "." ++ v
  | 3 => "[" ++ v ++ "]"
  | 4 => ":" ++ v
  | 5 => "::" ++ v

/-- Dispatch a part-appending call by category index. -/
def applyPart (s : SelectorState) (c : Fin 6) (v : String) :
    Except BuilderError SelectorState :=
  match c with
  | 0 => element s v
  | 1 => id s v
  | 2 => «class» s v
  | 3 => attr s v
  | 4 => pseudoClass s v
  | 5 => pseudoElement s v

/-- Run a chain of part-appending calls, propagating the first error. -/
def runChain (s : SelectorState) : List (Fin 6 × String) → Except BuilderError SelectorState
  | [] => .ok s
  | p :: rest =>
    match applyPart s p.1 p.2 with
    | .error e => .error e
    | .ok s1 => runChain s1 rest

/-- The categories restricted to a single occurrence per chain:
element, id and pseudoElement. -/
def singleUse (c : Fin 6) : Prop := c = 0 ∨ c = 1 ∨ c = 5

instance : DecidablePred singleUse := fun c => by
  unfold singleUse; infer_instance

/-! Helper lemmas. -/

theorem checkCallOnce_ok (s : SelectorState) (bit : Fin 6) (h : s.bits bit = false) :
    checkCallOnce s bit = Except.ok () := by
  simp [checkCallOnce, h]

theorem checkOrder_ok (s : SelectorState) (bit : Fin 6)
    (h : ∀ i : Fin 6, bit < i → s.bits i = false) :
    checkOrder s bit = Except.ok () := by
  unfold checkOrder
  rw [if_neg]
  rintro ⟨i, hlt, hbit⟩
  rw [h i hlt] at hbit
  exact Bool.false_ne_true hbit

theorem element_ok (s : SelectorState) (v : String)
    (h0 : s.bits 0 = false) (h : ∀ i : Fin 6, (0 : Fin 6) < i → s.bits i = false) :
    element s v = .ok { res := s.res ++ v, bits := Function.update s.bits 0 true } := by
  unfold element
  rw [checkCallOnce_ok s 0 h0, checkOrder_ok s 0 h]
  rfl

theorem id_ok (s : SelectorState) (v : String)
    (h1 : s.bits 1 = false) (h : ∀ i : Fin 6, (1 : Fin 6) < i → s.bits i = false) :
    id s v = .ok { res := s.res ++ "#" ++ v, bits := Function.update s.bits 1 true } := by
  unfold id
  rw [checkCallOnce_ok s 1 h1, checkOrder_ok s 1 h]
  rfl

theorem class_ok (s : SelectorState) (v : String)
    (h : ∀ i : Fin 6, (2 : Fin 6) < i → s.bits i = false) :
    «class» s v = .ok { res := s.res ++ "." ++ v, bits := Function.update s.bits 2 true } := by
  unfold «class»
  rw [checkOrder_ok s 2 h]
  rfl

theorem attr_ok (s : SelectorState) (v : String)
    (h : ∀ i : Fin 6, (3 : Fin 6) < i → s.bits i = false) :
    attr s v = .ok { res := s.res ++ "[" ++ v ++ "]", bits := Function.update s.bits 3 true } := by
  unfold attr
  rw [checkOrder_ok s 3 h]
  rfl

theorem pseudoClass_ok (s : SelectorState) (v : String)
    (h : ∀ i : Fin 6, (4 : Fin 6) < i → s.bits i = false) :
    pseudoClass s v = .ok { res := s.res ++ ":" ++ v, bits := Function.update s.bits 4 true } := by
  unfold pseudoClass
  rw [checkOrder_ok s 4 h]
  rfl

theorem pseudoElement_ok (s : SelectorState) (v : String)
    (h5 : s.bits 5 = false) (h : ∀ i : Fin 6, (5 : Fin 6) < i → s.bits i = false) :
    pseudoElement s v = .ok { res := s.res ++ "::" ++ v, bits := Function.update s.bits 5 true } := by
  unfold pseudoElement
  rw [checkCallOnce_ok s 5 h5, checkOrder_ok s 5 h]
  rfl

theorem applyPart_ok (s : SelectorState) (c : Fin 6) (v : String)
    (horder : ∀ i : Fin 6, c < i → s.bits i = false)
    (honce : singleUse c → s.bits c = false) :
    applyPart s c v
      = .ok { res := s.res ++ fragOf c v, bits := Function.update s.bits c true } := by
  fin_cases c
  · exact element_ok s v (honce (Or.inl rfl)) horder
  · simp [applyPart, fragOf, id_ok s v (honce (Or.inr (Or.inl rfl))) horder,
      String.append_assoc]
  · simp [applyPart, fragOf, class_ok s v horder, String.append_assoc]
  · simp [applyPart, fragOf, attr_ok s v horder, String.append_assoc]
  · simp [applyPart, fragOf, pseudoClass_ok s v horder, String.append_assoc]
  · simp [applyPart, fragOf, pseudoElement_ok s v (honce (Or.inr (Or.inr rfl))) horder,
      String.append_assoc]

theorem runChain_ok (calls : List (Fin 6 × String)) :
    ∀ s : SelectorState,
    List.Pairwise (fun a b => a.1 ≤ b.1) calls →
    (∀ c : Fin 6, singleUse c → (calls.map Prod.fst).count c ≤ 1) →
    (∀ p ∈ calls, (∀ j : Fin 6, s.bits j = true → j ≤ p.1) ∧
                  (singleUse p.1 → s.bits p.1 = false)) →
    ∃ s', runChain s calls = .ok s' ∧
      s'.res = calls.foldl (fun acc p => acc ++ fragOf p.1 p.2) s.res := by
  induction calls with
  | nil => exact fun s _ _ _ => ⟨s, rfl, rfl⟩
  | cons p rest ih =>
    intro s hsort hcount H
    obtain ⟨Hle, Honce⟩ := H p (List.mem_cons_self p rest)
    have horder : ∀ i : Fin 6, p.1 < i → s.bits i = false := by
      intro i hi
      by_contra hbit
      have hbit' : s.bits i = true := by
        simpa using hbit
      exact absurd (Hle i hbit') (not_le.mpr hi)
    have happly := applyPart_ok s p.1 p.2 horder Honce
    have hhead := (List.pairwise_cons.mp hsort).1
    have hsort' := (List.pairwise_cons.mp hsort).2
    have hcount' : ∀ c : Fin 6, singleUse c → (rest.map Prod.fst).count c ≤ 1 := by
      intro c hc
      refine le_trans ?_ (hcount c hc)
      exact List.Sublist.count_le (List.sublist_cons_self p.1 (rest.map Prod.fst)) c
    have hnotin : singleUse p.1 → p.1 ∉ rest.map Prod.fst := by
      intro hc
      have h1 := hcount p.1 hc
      rw [List.map_cons, List.count_cons_self] at h1
      have h0 : (rest.map Prod.fst).count p.1 = 0 := by omega
      exact List.count_eq_zero.mp h0
    have H' : ∀ p' ∈ rest,
        (∀ j : Fin 6, (Function.update s.bits p.1 true) j = true → j ≤ p'.1) ∧
        (singleUse p'.1 → (Function.update s.bits p.1 true) p'.1 = false) := by
      intro p' hp'
      constructor
      · intro j hj
        by_cases hjc : j = p.1
        · subst hjc; exact hhead p' hp'
        · rw [Function.update_noteq hjc] at hj
          exact (H p' (List.mem_cons_of_mem p hp')).1 j hj
      · intro hsu
        by_cases hpc : p'.1 = p.1
        · exact absurd (hpc ▸ List.mem_map_of_mem Prod.fst hp') (hnotin (hpc ▸ hsu))
        · rw [Function.update_noteq hpc]
          exact (H p' (List.mem_cons_of_mem p hp')).2 hsu
    obtain ⟨s', hrun, hres⟩ :=
      ih { res := s.res ++ fragOf p.1 p.2, bits := Function.update s.bits p.1 true }
        hsort' hcount' H'
    refine ⟨s', ?_, ?_⟩
    · show runChain s (p :: rest) = .ok s'
      unfold runChain
      rw [happly]
      exact hrun
    · rw [hres]
      rfl

/-! Store lemmas. -/

theorem getObj_set_ne (σ : Store) (r r' : Nat) (s : SelectorState) (h : r ≠ r') :
    getObj (σ.set r s) r' = getObj σ r' := by
  simp [getObj, List.getD_eq_getElem?_getD, List.getElem?_set_ne h]

theorem getObj_set_self (σ : Store) (r : Nat) (s : SelectorState) (h : r < σ.length) :
    getObj (σ.set r s) r = s := by
  simp [getObj, List.getD_eq_getElem?_getD, List.getElem?_set_eq_of_lt s h]

theorem getObj_append_lt (σ σ' : Store) (r : Nat) (h : r < σ.length) :
    getObj (σ ++ σ') r = getObj σ r := by
  simp [getObj, List.getD_eq_getElem?_getD, List.getElem?_append_left h]

theorem getObj_concat_length (σ : Store) (s : SelectorState) :
    getObj (σ ++ [s]) σ.length = s := by
  simp [getObj, List.getD_eq_getElem?_getD, List.getElem?_concat_length]

theorem getObj_oob (σ : Store) (r : Nat) (h : σ.length ≤ r) :
    getObj σ r = cssSelectorBuilder := by
  simp [getObj, List.getD_eq_getElem?_getD, List.getElem?_eq_none h]

/-- Overwriting only the `res` field of an object never changes the `bits`
of any object, at any reference. -/
theorem getObj_bits_set_res (σ : Store) (r r' : Nat) (t : String) :
    (getObj (σ.set r { getObj σ r with res := t }) r').bits = (getObj σ r').bits := by
  by_cases h : r = r'
  · subst h
    by_cases hr : r < σ.length
    · rw [getObj_set_self σ r _ hr]
    · rw [List.set_eq_of_length_le (le_of_not_lt hr)]
  · rw [getObj_set_ne σ r r' _ h]

/-- A heap variant of a failing method call changes nothing: the `throw`
happens before the allocation, so the resulting store is the input store. -/
theorem allocPart_error_frame (σ : Store) (r : Nat)
    (op : SelectorState → Except BuilderError SelectorState) (e : BuilderError)
    (h : (allocPart σ r op).snd = .error e) : (allocPart σ r op).fst = σ := by
  unfold allocPart at h ⊢
  cases hop : op (getObj σ r) with
  | error e' => simp [hop]
  | ok s => rw [hop] at h; simp at h

/-- A concrete store used as witness input: the base builder object at
reference 0, the state built by `element("div").id("main")` at reference 1,
and the state built by `element("span")` at reference 2. -/
def demoStore : Store :=
  [cssSelectorBuilder,
   { res := "div#main",
     bits := Function.update (Function.update (fun _ => false) 0 true) 1 true },
   { res := "span", bits := Function.update (fun _ => false) 0 true }]

/-- The two non-base objects of `demoStore` really are the results of
`element("div").id("main")` and `element("span")` on the fresh builder. -/
theorem demoStore_built :
    (element cssSelectorBuilder "div").bind (fun s => id s "main")
      = .ok (getObj demoStore 1) ∧
    element cssSelectorBuilder "span" = .ok (getObj demoStore 2) :=
  ⟨rfl, rfl⟩

/-! Claims. -/

/-- C1: for every chain of part-appending calls starting from the fresh
builder state, applied in non-decreasing category order with element, id,
pseudoElement each used at most once (class, attribute, pseudoClass may
repeat), every call succeeds and the rendered text equals the concatenation,
in the order the calls were applied, of the fragments `value`, `#value`,
`.value`, `[value]`, `:value`, `::value`. -/
theorem chain_from_fresh_renders_concatenation
    (calls : List (Fin 6 × String))
    (hsort : List.Pairwise (fun a b => a.1 ≤ b.1) calls)
    (hcount : ∀ c : Fin 6, singleUse c → (calls.map Prod.fst).count c ≤ 1) :
    ∃ s, runChain cssSelectorBuilder calls = .ok s ∧
      (stringify s).fst = calls.foldl (fun acc p => acc ++ fragOf p.1 p.2) "" := by
  obtain ⟨s, h1, h2⟩ := runChain_ok calls cssSelectorBuilder hsort hcount
    (fun p _ => ⟨fun j hj => absurd hj (by simp [cssSelectorBuilder]),
                 fun _ => rfl⟩)
  exact ⟨s, h1, h2⟩

/-- Witness for C1 on the example chain from the spec:
`element("a").attr("href$=...png...").pseudoClass("focus")`. -/
theorem chain_from_fresh_renders_concatenation_witness :
    List.Pairwise (fun (a b : Fin 6 × String) => a.1 ≤ b.1)
      [((0 : Fin 6), "a"), (3, "href$=\".png\""), (4, "focus")] ∧
    (∀ c : Fin 6, singleUse c →
      (([((0 : Fin 6), "a"), (3, "href$=\".png\""), (4, "focus")]).map Prod.fst).count c ≤ 1) ∧
    ∃ s, runChain cssSelectorBuilder
        [((0 : Fin 6), "a"), (3, "href$=\".png\""), (4, "focus")] = .ok s ∧
      (stringify s).fst = "a[href$=\".png\"]:focus" := by
  refine ⟨by decide, by decide, ?_⟩
  obtain ⟨s, h1, h2⟩ := chain_from_fresh_renders_concatenation
    [((0 : Fin 6), "a"), (3, "href$=\".png\""), (4, "focus")] (by decide) (by decide)
  exact ⟨s, h1, h2.trans (by rfl)⟩

/-- C2 counterexample: on the state built by `element("a")`, the first
`stringify()` returns `"a"` but — because `stringify` clears `this.res` —
the second `stringify()` on that same object returns `""`, so two renders
in succession are not equal. -/
theorem render_idempotence_counterexample :
    (element cssSelectorBuilder "a").map
        (fun s => ((stringify s).fst, (stringify (stringify s).snd).fst))
      = .ok ("a", "") ∧ ("a" : String) ≠ "" :=
  ⟨rfl, by decide⟩

/-- C2 amended: `stringify` returns the accumulated text of the state, but
it also resets that text to the empty string, so a second `stringify` on
the resulting state returns `""`; the two renders agree exactly when the
accumulated text is already empty. -/
theorem stringify_returns_text_and_clears (s : SelectorState) :
    (stringify s).fst = s.res ∧
    ((stringify s).snd).res = "" ∧
    (stringify (stringify s).snd).fst = "" ∧
    ((stringify s).fst = (stringify (stringify s).snd).fst ↔ s.res = "") := by
  refine ⟨rfl, rfl, rfl, ?_⟩
  simp [stringify]

/-- C3: `element`, `id` and `pseudoElement` raise the duplicate-part error
exactly when the presence flag of their category is already set in the current
state, and `class`, `attr`, `pseudoClass` never raise it. -/
theorem duplicate_error_iff (s : SelectorState) (v : String) :
    (element s v = .error .duplicatePart ↔ s.bits 0 = true) ∧
    (id s v = .error .duplicatePart ↔ s.bits 1 = true) ∧
    (pseudoElement s v = .error .duplicatePart ↔ s.bits 5 = true) ∧
    «class» s v ≠ .error .duplicatePart ∧
    attr s v ≠ .error .duplicatePart ∧
    pseudoClass s v ≠ .error .duplicatePart := by
  unfold element id pseudoElement «class» attr pseudoClass checkCallOnce checkOrder
  refine ⟨?_, ?_, ?_, ?_, ?_, ?_⟩ <;> (split_ifs <;> simp_all)

/-- C4 counterexample: on the state built by `element("a").id("b")` the
strictly-higher category `id` (index 1 > 0) has its flag set, yet calling
`element("c")` raises the duplicate-part error, not the ordering error,
because `checkCallOnce` runs before `checkOrder`. -/
theorem ordering_error_iff_counterexample :
    ((element cssSelectorBuilder "a").bind (fun s => id s "b")).map
        (fun s => (s.bits 1, element s "c"))
      = .ok (true, .error .duplicatePart) ∧
    ((0 : Fin 6) < (1 : Fin 6)) ∧
    BuilderError.duplicatePart ≠ BuilderError.ordering :=
  ⟨rfl, by decide, by decide⟩

/-- C4 amended: for `class`, `attr` and `pseudoClass` the ordering error is
raised exactly when some strictly higher category flag is set; for
`element`, `id` and `pseudoElement` the same holds only when that
own flag of that category is not set, since the single-occurrence check runs
first and masks the ordering error otherwise.  In particular repeating
`class` after `class` raises nothing. -/
theorem ordering_error_characterization (s : SelectorState) (v : String) :
    («class» s v = .error .ordering ↔ ∃ i : Fin 6, 2 < i ∧ s.bits i = true) ∧
    (attr s v = .error .ordering ↔ ∃ i : Fin 6, 3 < i ∧ s.bits i = true) ∧
    (pseudoClass s v = .error .ordering ↔ ∃ i : Fin 6, 4 < i ∧ s.bits i = true) ∧
    (element s v = .error .ordering ↔
      (s.bits 0 = false ∧ ∃ i : Fin 6, 0 < i ∧ s.bits i = true)) ∧
    (id s v = .error .ordering ↔
      (s.bits 1 = false ∧ ∃ i : Fin 6, 1 < i ∧ s.bits i = true)) ∧
    (pseudoElement s v = .error .ordering ↔
      (s.bits 5 = false ∧ ∃ i : Fin 6, 5 < i ∧ s.bits i = true)) := by
  unfold element id «class» attr pseudoClass pseudoElement checkCallOnce checkOrder
  refine ⟨?_, ?_, ?_, ?_, ?_, ?_⟩ <;> (split_ifs <;> simp_all)

/-- C5: rendering the state produced by `combine(left, combinator, right)`
gives the rendered text of `left`, a single space, the combinator token
verbatim, a single space, and the rendered text of `right`. -/
theorem combine_renders_joined (σ : Store) (rthis r1 r2 : Nat) (comb : String)
    (hthis : rthis < σ.length) (hne : r1 ≠ r2) :
    (stringifyS (combineS σ rthis r1 comb r2).fst
        (combineS σ rthis r1 comb r2).snd).fst
      = (getObj σ r1).res ++ " " ++ comb ++ " " ++ (getObj σ r2).res := by
  have h1 : getObj (σ.set r1 { getObj σ r1 with res := "" }) r2 = getObj σ r2 :=
    getObj_set_ne σ r1 r2 _ hne
  simp only [combineS, stringifyS, h1]
  rw [getObj_set_self]
  simpa using hthis

/-- Witness for C5: `combine(element("div").id("main"), "+",
element("span")).stringify()` is `div#main + span`. -/
theorem combine_renders_joined_witness :
    0 < demoStore.length ∧ (1 : Nat) ≠ 2 ∧
    (stringifyS (combineS demoStore 0 1 "+" 2).fst
        (combineS demoStore 0 1 "+" 2).snd).fst = "div#main + span" := by
  refine ⟨by decide, by decide, ?_⟩
  exact (combine_renders_joined demoStore 0 1 2 "+" (by decide) (by decide)).trans
    (by rfl)

/-- C6 counterexample: `combine` invoked on the base builder (reference 0)
with operands at references 1 and 2 returns reference 0 itself — the
receiver, not a fresh value — mutates the text of the receiver from empty to the
joined string, allocates nothing, and clears both operand texts. -/
theorem combine_fresh_value_counterexample :
    (combineS demoStore 0 1 "+" 2).snd = 0 ∧
    (getObj (combineS demoStore 0 1 "+" 2).fst 0).res = "div#main + span" ∧
    (getObj demoStore 0).res = "" ∧
    ("div#main + span" : String) ≠ "" ∧
    (combineS demoStore 0 1 "+" 2).fst.length = demoStore.length ∧
    (getObj (combineS demoStore 0 1 "+" 2).fst 1).res = "" ∧
    (getObj demoStore 1).res = "div#main" :=
  ⟨rfl, by rfl, rfl, by decide, by rfl, by rfl, rfl⟩

/-- C6 amended: `combine` returns the receiver reference itself, mutated in
place so that its text is the joined string; no new object is allocated,
and both operands are mutated as well (their texts are cleared). -/
theorem combine_returns_mutated_receiver (σ : Store) (rthis r1 r2 : Nat)
    (comb : String) (hthis : rthis < σ.length)
    (h1 : r1 < σ.length) (h2 : r2 < σ.length)
    (h12 : r1 ≠ r2) (h1t : r1 ≠ rthis) (h2t : r2 ≠ rthis) :
    (combineS σ rthis r1 comb r2).snd = rthis ∧
    (getObj (combineS σ rthis r1 comb r2).fst rthis).res
      = (getObj σ r1).res ++ " " ++ comb ++ " " ++ (getObj σ r2).res ∧
    (combineS σ rthis r1 comb r2).fst.length = σ.length ∧
    (getObj (combineS σ rthis r1 comb r2).fst r1).res = "" ∧
    (getObj (combineS σ rthis r1 comb r2).fst r2).res = "" := by
  have hres : getObj (σ.set r1 { getObj σ r1 with res := "" }) r2 = getObj σ r2 :=
    getObj_set_ne σ r1 r2 _ h12
  refine ⟨rfl, ?_, ?_, ?_, ?_⟩
  · simp only [combineS, stringifyS, hres]
    rw [getObj_set_self]
    simpa using hthis
  · simp [combineS, stringifyS]
  · simp only [combineS, stringifyS]
    rw [getObj_set_ne _ _ _ _ (Ne.symm h1t),
        getObj_set_ne _ _ _ _ (Ne.symm h12),
        getObj_set_self σ r1 _ h1]
  · simp only [combineS, stringifyS]
    rw [getObj_set_ne _ _ _ _ (Ne.symm h2t),
        getObj_set_self _ r2 _ (by simpa using h2)]

/-- Witness for the amended C6 statement on the concrete store. -/
theorem combine_returns_mutated_receiver_witness :
    0 < demoStore.length ∧ 1 < demoStore.length ∧ 2 < demoStore.length ∧
    (1 : Nat) ≠ 2 ∧ (1 : Nat) ≠ 0 ∧ (2 : Nat) ≠ 0 ∧
    ((combineS demoStore 0 1 "+" 2).snd = 0 ∧
     (getObj (combineS demoStore 0 1 "+" 2).fst 0).res = "div#main + span" ∧
     (combineS demoStore 0 1 "+" 2).fst.length = demoStore.length ∧
     (getObj (combineS demoStore 0 1 "+" 2).fst 1).res = "" ∧
     (getObj (combineS demoStore 0 1 "+" 2).fst 2).res = "") := by
  refine ⟨by decide, by decide, by decide, by decide, by decide, by decide, ?_⟩
  obtain ⟨a, b, c, d, e⟩ := combine_returns_mutated_receiver demoStore 0 1 2 "+"
    (by decide) (by decide) (by decide) (by decide) (by decide) (by decide)
  exact ⟨a, b.trans (by rfl), c, d, e⟩

/-- C7: a part-appending call that fails (with either error) performs no
write at all: the whole store — in particular the accumulated
text of the receiver and its six presence flags — is exactly as it was
before the call. -/
theorem failed_call_no_side_effect (σ : Store) (r : Nat) (v : String) :
    (∀ e, (elementS σ r v).snd = .error e → (elementS σ r v).fst = σ) ∧
    (∀ e, (idS σ r v).snd = .error e → (idS σ r v).fst = σ) ∧
    (∀ e, (classS σ r v).snd = .error e → (classS σ r v).fst = σ) ∧
    (∀ e, (attrS σ r v).snd = .error e → (attrS σ r v).fst = σ) ∧
    (∀ e, (pseudoClassS σ r v).snd = .error e → (pseudoClassS σ r v).fst = σ) ∧
    (∀ e, (pseudoElementS σ r v).snd = .error e → (pseudoElementS σ r v).fst = σ) := by
  refine ⟨?_, ?_, ?_, ?_, ?_, ?_⟩ <;>
    exact fun e h => allocPart_error_frame σ r _ e h

/-- Witness for C7: calling `element("b")` on a store holding a single
object already containing an element part fails with the duplicate-part
error and leaves the store untouched. -/
theorem failed_call_no_side_effect_witness :
    (elementS [{ res := "a", bits := Function.update (fun _ => false) 0 true }] 0 "b").snd
      = .error .duplicatePart ∧
    (elementS [{ res := "a", bits := Function.update (fun _ => false) 0 true }] 0 "b").fst
      = [{ res := "a", bits := Function.update (fun _ => false) 0 true }] := by
  refine ⟨by rfl, ?_⟩
  exact (failed_call_no_side_effect
    [{ res := "a", bits := Function.update (fun _ => false) 0 true }] 0 "b").1
    .duplicatePart (by rfl)

/-- C9: after `combine`, both operands have been mutated: their accumulated
text is the empty string (their buffers were cleared by the `stringify`
calls inside `combine`), so a subsequent `stringify` on either operand
returns `""` rather than its previous text. -/
theorem combine_clears_operands (σ : Store) (rthis r1 r2 : Nat) (comb : String)
    (h1 : r1 < σ.length) (h2 : r2 < σ.length)
    (h12 : r1 ≠ r2) (h1t : r1 ≠ rthis) (h2t : r2 ≠ rthis) :
    (getObj (combineS σ rthis r1 comb r2).fst r1).res = "" ∧
    (getObj (combineS σ rthis r1 comb r2).fst r2).res = "" ∧
    (stringifyS (combineS σ rthis r1 comb r2).fst r1).fst = "" ∧
    (stringifyS (combineS σ rthis r1 comb r2).fst r2).fst = "" := by
  have g1 : (getObj (combineS σ rthis r1 comb r2).fst r1).res = "" := by
    simp only [combineS, stringifyS]
    rw [getObj_set_ne _ _ _ _ (Ne.symm h1t),
        getObj_set_ne _ _ _ _ (Ne.symm h12),
        getObj_set_self σ r1 _ h1]
  have g2 : (getObj (combineS σ rthis r1 comb r2).fst r2).res = "" := by
    simp only [combineS, stringifyS]
    rw [getObj_set_ne _ _ _ _ (Ne.symm h2t),
        getObj_set_self _ r2 _ (by simpa using h2)]
  exact ⟨g1, g2, g1, g2⟩

/-- Witness for C9: combining `element("div").id("main")` and
`element("span")` leaves both operands cleared — each subsequently renders
as `""` instead of `"div#main"` / `"span"`. -/
theorem combine_clears_operands_witness :
    1 < demoStore.length ∧ 2 < demoStore.length ∧ (1 : Nat) ≠ 2 ∧
    (1 : Nat) ≠ 0 ∧ (2 : Nat) ≠ 0 ∧
    ((getObj (combineS demoStore 0 1 "+" 2).fst 1).res = "" ∧
     (getObj (combineS demoStore 0 1 "+" 2).fst 2).res = "" ∧
     (stringifyS (combineS demoStore 0 1 "+" 2).fst 1).fst = "" ∧
     (stringifyS (combineS demoStore 0 1 "+" 2).fst 2).fst = "") ∧
    (getObj demoStore 1).res = "div#main" ∧ (getObj demoStore 2).res = "span" := by
  refine ⟨by decide, by decide, by decide, by decide, by decide, ?_, rfl, rfl⟩
  exact combine_clears_operands demoStore 0 1 2 "+"
    (by decide) (by decide) (by decide) (by decide) (by decide)

/-- C8: from a common ancestor state at reference `r`, deriving
`A = S.class("x")` and then, independently, `B = S.class("y")` yields two
distinct fresh objects; `A` renders as the ancestor text followed by `.x`
only, `B` as the ancestor text followed by `.y` only, and rendering `A`
first does not change what `B` renders. -/
theorem class_non_interference (σ : Store) (r : Nat) (x y : String)
    (hr : r < σ.length)
    (h : ∀ i : Fin 6, (2 : Fin 6) < i → (getObj σ r).bits i = false) :
    ∃ σA rA σB rB,
      classS σ r x = (σA, .ok rA) ∧
      classS σA r y = (σB, .ok rB) ∧
      rA ≠ rB ∧
      (stringifyS σB rA).fst = (getObj σ r).res ++ "." ++ x ∧
      (stringifyS σB rB).fst = (getObj σ r).res ++ "." ++ y ∧
      (stringifyS (stringifyS σB rA).snd rB).fst = (getObj σ r).res ++ "." ++ y := by
  have hcx := class_ok (getObj σ r) x h
  have hcy := class_ok (getObj σ r) y h
  set sx : SelectorState :=
    { res := (getObj σ r).res ++ "." ++ x,
      bits := Function.update (getObj σ r).bits 2 true } with hsx
  set sy : SelectorState :=
    { res := (getObj σ r).res ++ "." ++ y,
      bits := Function.update (getObj σ r).bits 2 true } with hsy
  have hA : classS σ r x = (σ ++ [sx], .ok σ.length) := by
    simp [classS, allocPart, hcx, hsx]
  have hgr : getObj (σ ++ [sx]) r = getObj σ r := getObj_append_lt σ _ r hr
  have hB : classS (σ ++ [sx]) r y = (σ ++ [sx] ++ [sy], .ok (σ.length + 1)) := by
    simp [classS, allocPart, hgr, hcy, hsy]
  refine ⟨σ ++ [sx], σ.length, σ ++ [sx] ++ [sy], σ.length + 1, hA, hB,
    by omega, ?_, ?_, ?_⟩
  · show (getObj (σ ++ [sx] ++ [sy]) σ.length).res = _
    rw [getObj_append_lt _ _ σ.length (by simp), getObj_concat_length]
  · show (getObj (σ ++ [sx] ++ [sy]) (σ.length + 1)).res = _
    have hlen : σ.length + 1 = (σ ++ [sx]).length := by simp
    rw [hlen, getObj_concat_length]
  · show (getObj (List.set _ σ.length _) (σ.length + 1)).res = _
    rw [getObj_set_ne _ _ _ _ (by omega)]
    have hlen : σ.length + 1 = (σ ++ [sx]).length := by simp
    rw [hlen, getObj_concat_length]

/-- Witness for C8 on the ancestor `id("s")` (text `#s`) with classes
`x` and `y`: the two branches render `#s.x` and `#s.y` independently. -/
theorem class_non_interference_witness :
    0 < ([{ res := "#s", bits := Function.update (fun _ => false) 1 true }] : Store).length ∧
    (∀ i : Fin 6, (2 : Fin 6) < i →
      (getObj [{ res := "#s", bits := Function.update (fun _ => false) 1 true }] 0).bits i
        = false) ∧
    ∃ σA rA σB rB,
      classS [{ res := "#s", bits := Function.update (fun _ => false) 1 true }] 0 "x"
        = (σA, .ok rA) ∧
      classS σA 0 "y" = (σB, .ok rB) ∧
      rA ≠ rB ∧
      (stringifyS σB rA).fst = "#s.x" ∧
      (stringifyS σB rB).fst = "#s.y" ∧
      (stringifyS (stringifyS σB rA).snd rB).fst = "#s.y" := by
  refine ⟨by decide, by decide, ?_⟩
  obtain ⟨σA, rA, σB, rB, h1, h2, h3, h4, h5, h6⟩ :=
    class_non_interference
      [{ res := "#s", bits := Function.update (fun _ => false) 1 true }] 0 "x" "y"
      (by decide) (by decide)
  exact ⟨σA, rA, σB, rB, h1, h2, h3,
    h4.trans (by rfl), h5.trans (by rfl), h6.trans (by rfl)⟩

/-- C10: the state `combine` leaves in a receiver whose six presence flags
are all false (as they are on the base `cssSelectorBuilder`) still has all
six flags false, so every part-appending operation — including the
single-occurrence `element` and `id` — succeeds on the combined state and
appends its fragment to the combined text: combined states are extendable,
not enforced terminal. -/
theorem combined_state_extendable (σ : Store) (rthis r1 r2 : Nat) (comb : String)
    (hbits : ∀ i : Fin 6, (getObj σ rthis).bits i = false) :
    (∀ i : Fin 6,
      (getObj (combineS σ rthis r1 comb r2).fst rthis).bits i = false) ∧
    (∀ (c : Fin 6) (v : String), ∃ s',
      applyPart (getObj (combineS σ rthis r1 comb r2).fst rthis) c v = .ok s' ∧
      s'.res = (getObj (combineS σ rthis r1 comb r2).fst rthis).res ++ fragOf c v) := by
  have hb : ∀ i : Fin 6,
      (getObj (combineS σ rthis r1 comb r2).fst rthis).bits i = false := by
    intro i
    simp only [combineS, stringifyS]
    rw [getObj_bits_set_res, getObj_bits_set_res, getObj_bits_set_res]
    exact hbits i
  refine ⟨hb, fun c v => ?_⟩
  exact ⟨_, applyPart_ok _ c v (fun i _ => hb i) (fun _ => hb c), rfl⟩

/-- Witness for C10: after `combine` on the base builder (reference 0 of
the concrete store), `element("em")` succeeds on the combined state and
appends `em` to its text. -/
theorem combined_state_extendable_witness :
    (∀ i : Fin 6, (getObj demoStore 0).bits i = false) ∧
    (∀ i : Fin 6, (getObj (combineS demoStore 0 1 "+" 2).fst 0).bits i = false) ∧
    ∃ s', applyPart (getObj (combineS demoStore 0 1 "+" 2).fst 0) 0 "em" = .ok s' ∧
      s'.res = (getObj (combineS demoStore 0 1 "+" 2).fst 0).res ++ fragOf 0 "em" := by
  refine ⟨by decide, ?_, ?_⟩
  · exact (combined_state_extendable demoStore 0 1 2 "+" (by decide)).1
  · exact (combined_state_extendable demoStore 0 1 2 "+" (by decide)).2 0 "em"

end Css

